import Mathlib

/-!
Verification of the piggyback data staleness and lifecycle subsystem
(`cmk/utils/piggyback.py`).

The embedding models time as exact rationals (`Seconds`): the code only ever
subtracts and compares mtimes and `time.time()` values.  Filesystem state is
modelled explicitly: an mtime map for the inspector, and a
payload/status-file store for the writer and accessor.  Fallible operations
(a `KeyError` escaping from `max_cache_age`, a `FileNotFoundError` from
`stat`) are modelled with `Option`/`Except`.  Python regular-expression
matching (`re.match`) is abstracted as a boolean parameter `re_match`,
since no claim depends on regex semantics themselves.
-/

namespace Piggyback

/-- Wall-clock times and ages, in seconds (the code uses float seconds). -/
abbrev Seconds := Rat

/-- Scope of one expanded time-setting entry: `none` is the global scope,
`some h` a concrete host name; paired with the setting key. -/
abbrev SettingKey := Option String × String

/-- One configured rule, as in `_PiggybackTimeSetting`:
(scope expression or `None`, setting key, integer value). -/
abbrev PiggybackTimeSetting := Option String × String × Int

/-- Association-list lookup (models a Python `dict` read). -/
def alookup {α β : Type} [DecidableEq α] (k : α) : List (α × β) → Option β
  | [] => none
  | kv :: rest => if kv.1 = k then some kv.2 else alookup k rest

/-- Models `dict.setdefault(k, v)`: insert only when the key is absent. -/
def setdefault (m : List (SettingKey × Int)) (k : SettingKey) (v : Int) :
    List (SettingKey × Int) :=
  match alookup k m with
  | some _ => m
  | none => m ++ [(k, v)]

/-- One iteration of the loop in `_TimeSettingsMap.__init__` (lines 154-164):
a rule whose scope expression is `None`, a known source host name, or the
piggybacked host name registers under that literal scope; otherwise a scope
expression starting with a tilde whose remainder regex-matches the
piggybacked host name registers under the piggybacked host name itself;
otherwise the rule is dropped. -/
def time_setting_rule_step (source_hostnames : List String)
    (piggybacked_hostname : String) (re_match : String → String → Bool)
    (m : List (SettingKey × Int)) (r : PiggybackTimeSetting) :
    List (SettingKey × Int) :=
  match r with
  | (none, key, value) => setdefault m (none, key) value
  | (some e, key, value) =>
    if e ∈ source_hostnames ∨ e = piggybacked_hostname then
      setdefault m (some e, key) value
    else if e.startsWith "~" ∧ re_match (e.drop 1) piggybacked_hostname then
      setdefault m (some piggybacked_hostname, key) value
    else m

/-- The expanded settings dict built by `_TimeSettingsMap.__init__`. -/
def matching_time_settings (source_hostnames : List String)
    (piggybacked_hostname : String) (re_match : String → String → Bool)
    (time_settings : List PiggybackTimeSetting) : List (SettingKey × Int) :=
  time_settings.foldl
    (time_setting_rule_step source_hostnames piggybacked_hostname re_match) []

/-- Models `_TimeSettingsMap._match`: piggybacked-host scope first, then
source-host scope, then the global scope; `none` models the `KeyError`
raised when the final dict access finds nothing. -/
def time_settings_match (m : List (SettingKey × Int)) (key : String)
    (source_hostname piggybacked_hostname : String) : Option Int :=
  (alookup (some piggybacked_hostname, key) m).or
    ((alookup (some source_hostname, key) m).or (alookup (none, key) m))

/-- Models `_TimeSettingsMap.max_cache_age`; the `KeyError` is not caught,
so `none` stands for the uncaught error. -/
def max_cache_age (m : List (SettingKey × Int))
    (source_hostname piggybacked_hostname : String) : Option Int :=
  time_settings_match m "max_cache_age" source_hostname piggybacked_hostname

/-- Models `_TimeSettingsMap.validity_period`: a `KeyError` becomes `None`. -/
def validity_period (m : List (SettingKey × Int))
    (source_hostname piggybacked_hostname : String) : Option Int :=
  time_settings_match m "validity_period" source_hostname piggybacked_hostname

/-- Models `_TimeSettingsMap.validity_state`: a `KeyError` becomes `0`. -/
def validity_state (m : List (SettingKey × Int))
    (source_hostname piggybacked_hostname : String) : Int :=
  (time_settings_match m "validity_state" source_hostname piggybacked_hostname).getD 0

/-- Spec-side description of where a rule registers, used to state the
resolver claim: the key under which `time_setting_rule_step` inserts the
rule (or `none` when the rule does not apply to this target). -/
def rule_registration_key (source_hostnames : List String)
    (piggybacked_hostname : String) (re_match : String → String → Bool)
    (r : PiggybackTimeSetting) : Option SettingKey :=
  match r with
  | (none, key, _) => some (none, key)
  | (some e, key, _) =>
    if e ∈ source_hostnames ∨ e = piggybacked_hostname then some (some e, key)
    else if e.startsWith "~" ∧ re_match (e.drop 1) piggybacked_hostname then
      some (some piggybacked_hostname, key)
    else none

/-- A single apostrophe character, used in the message strings of the code. -/
def squote : String := String.singleton (Char.ofNat 39)

/-- Result of evaluating one (source, target) pair, as in the frozen
dataclass `PiggybackFileInfo`.  The `file_path` field is determined by the
(target, source) pair and is kept implicitly by that key; `__post_init__`
rejects an empty message, which the theorems below never produce. -/
structure PiggybackFileInfo where
  source : String
  valid : Bool
  message : String
  status : Int
deriving DecidableEq

/-- Models `_is_piggybacked_host_abandoned`: true when the status file is
missing or its mtime is strictly greater than the payload file mtime.  The
payload file exists at this point (its age was computed just before), so
only the status file is optional here. -/
def is_piggybacked_host_abandoned (status_mtime : Option Seconds)
    (payload_mtime : Seconds) : Bool :=
  match status_mtime with
  | some sm => decide (payload_mtime < sm)
  | none => true

/-- Models `_validity_period_message`: empty when no validity period is
configured or the remaining time is not strictly positive.  `render`
abstracts `_render_time`. -/
def validity_period_message (render : Seconds → String) (file_age : Seconds)
    (vp : Option Int) : String :=
  match vp with
  | none => ""
  | some p =>
    if (p : Seconds) - file_age ≤ 0 then ""
    else " (still valid, " ++ render ((p : Seconds) - file_age) ++ " left)"

/-- Models `_get_piggyback_processed_file_info`.  `payload_mtime = none`
models the `FileNotFoundError` branch; the result `none` models the
uncaught `KeyError` from `max_cache_age`; `now - mtime` is the file age. -/
def get_piggyback_processed_file_info (render : Seconds → String)
    (m : List (SettingKey × Int)) (source_hostname piggybacked_hostname : String)
    (payload_mtime status_mtime : Option Seconds) (now : Seconds) :
    Option PiggybackFileInfo :=
  match payload_mtime with
  | none => some ⟨source_hostname, false, "Piggyback file is missing", 0⟩
  | some pm =>
    let file_age := now - pm
    match max_cache_age m source_hostname piggybacked_hostname with
    | none => none
    | some allowed =>
      if (allowed : Seconds) < file_age then
        some ⟨source_hostname, false,
          "Piggyback file too old (age: " ++ render file_age ++
            ", allowed: " ++ render (allowed : Seconds) ++ ")", 0⟩
      else
        let vp := validity_period m source_hostname piggybacked_hostname
        let vs := validity_state m source_hostname piggybacked_hostname
        if is_piggybacked_host_abandoned status_mtime pm then
          let valid_msg := validity_period_message render file_age vp
          some ⟨source_hostname, decide (valid_msg ≠ ""),
            "Piggyback data not updated by source " ++ squote ++
              source_hostname ++ squote ++ valid_msg,
            if valid_msg = "" then 0 else vs⟩
        else
          some ⟨source_hostname, true,
            "Successfully processed from source " ++ squote ++
              source_hostname ++ squote, 0⟩

/-- Payload bytes: a byte string as a list of byte values. -/
abbrev Bytes := List Nat

/-- A stored file: its content and its access and modification times. -/
structure FileData where
  content : Bytes
  atime : Seconds
  mtime : Seconds
deriving DecidableEq

/-- The two directory trees the module works in: payload files keyed by
(piggybacked target, source) — `tmp/check_mk/piggyback/HOST/SOURCE` — and
source status files keyed by source — `tmp/check_mk/piggyback_sources/SOURCE`. -/
structure PiggybackFS where
  payloads : String × String → Option FileData
  statuses : String → Option FileData

/-- Overwrite (or delete, with `none`) one payload file. -/
def updPayload (fs : PiggybackFS) (k : String × String) (v : Option FileData) :
    PiggybackFS :=
  ⟨fun q => if q = k then v else fs.payloads q, fs.statuses⟩

/-- Overwrite (or delete, with `none`) one source status file. -/
def updStatus (fs : PiggybackFS) (s : String) (v : Option FileData) :
    PiggybackFS :=
  ⟨fs.payloads, fun q => if q = s then v else fs.statuses q⟩

/-- The bytes written for one target:
`b"%s\n" % b"\n".join(lines)` in `store_piggyback_raw_data` (line 339). -/
def join_lines (lines : List Bytes) : Bytes :=
  List.intercalate [10] lines ++ [10]

/-- Models `_remove_piggyback_file` applied to a source status file
(`remove_source_status_file`): unlink, with `FileNotFoundError` caught and
turned into `False`. -/
def remove_source_status_file (fs : PiggybackFS) (source_hostname : String) :
    PiggybackFS × Bool :=
  match fs.statuses source_hostname with
  | some _ => (updStatus fs source_hostname none, true)
  | none => (fs, false)

/-- The `os.utime` loop body of `_store_status_file_of` (lines 371-379):
set the payload file times to the status file times, skipping a payload
file that has vanished (`FileNotFoundError` → `continue`). -/
def utime_step (t : Seconds) (acc : PiggybackFS) (p : String × String) :
    PiggybackFS :=
  match acc.payloads p with
  | none => acc
  | some f => updPayload acc p (some ⟨f.content, t, t⟩)

/-- Models `_store_status_file_of`: create an empty temporary file (its
atime and mtime are the creation instant `t`), apply exactly those times to
every still-existing payload file of the batch, then atomically rename the
temporary file to the status file.  The final state is the status file with
content `[]` and times `(t, t)`. -/
def store_status_file_of (fs : PiggybackFS) (t : Seconds)
    (source_hostname : String) (piggyback_file_paths : List (String × String)) :
    PiggybackFS :=
  let fsU := piggyback_file_paths.foldl (utime_step t) fs
  updStatus fsU source_hostname (some ⟨[], t, t⟩)

/-- The payload-write loop body of `store_piggyback_raw_data` (lines
333-340): `store.save_bytes_to_file` of the newline-joined lines at write
time `t1`. -/
def write_step (source_hostname : String) (t1 : Seconds) (acc : PiggybackFS)
    (d : String × List Bytes) : PiggybackFS :=
  updPayload acc (d.1, source_hostname) (some ⟨join_lines d.2, t1, t1⟩)

/-- Models `store_piggyback_raw_data`: an empty batch removes the source
status file and returns; a non-empty batch writes every payload file (at
time `t1`) and then stores the status file (temporary file created at time
`t2`) over the collected payload paths. -/
def store_piggyback_raw_data (fs : PiggybackFS) (t1 t2 : Seconds)
    (source_hostname : String)
    (piggybacked_raw_data : List (String × List Bytes)) : PiggybackFS :=
  if piggybacked_raw_data.isEmpty then
    (remove_source_status_file fs source_hostname).1
  else
    let fs1 := piggybacked_raw_data.foldl (write_step source_hostname t1) fs
    store_status_file_of fs1 t2 source_hostname
      (piggybacked_raw_data.map (fun d => (d.1, source_hostname)))

/-- The frozen pair returned by the accessor, as in the named tuple
`PiggybackRawDataInfo`. -/
structure PiggybackRawDataInfo where
  info : PiggybackFileInfo
  raw_data : Bytes
deriving DecidableEq

/-- Models `store.load_bytes_from_file` against a filesystem state: `ok`
with the stored content, or an `OSError` message when the file is absent. -/
def load_bytes_from_file (fs : PiggybackFS) (p : String × String) :
    Except String Bytes :=
  match fs.payloads p with
  | some f => Except.ok f.content
  | none => Except.error "No such file or directory"

/-- Models `_get_piggyback_processed_file_infos`: build the expanded time
settings from the sources found under the target directory, then evaluate
every source; a raising evaluation (`none`) propagates. -/
def get_piggyback_processed_file_infos (render : Seconds → String)
    (re_match : String → String → Bool)
    (time_settings : List PiggybackTimeSetting) (piggybacked_hostname : String)
    (source_hostnames : List String) (payload_mtimes status_mtimes : String → Option Seconds)
    (now : Seconds) : Option (List PiggybackFileInfo) :=
  let m := matching_time_settings source_hostnames piggybacked_hostname
    re_match time_settings
  source_hostnames.mapM (fun s =>
    get_piggyback_processed_file_info render m s piggybacked_hostname
      (payload_mtimes s) (status_mtimes s) now)

/-- Models `get_piggyback_raw_data`.  A falsy host name (absent or the empty
string) short-circuits to `[]`; otherwise each file info is paired with the
bytes read at read time (`readF`, which may observe a file that vanished
since evaluation), an `OSError` degrading that one entry to an invalid,
empty-payload record. -/
def get_piggyback_raw_data (render : Seconds → String)
    (re_match : String → String → Bool)
    (time_settings : List PiggybackTimeSetting)
    (piggybacked_hostname : Option String) (source_hostnames : List String)
    (payload_mtimes status_mtimes : String → Option Seconds) (now : Seconds)
    (readF : String × String → Except String Bytes) :
    Option (List PiggybackRawDataInfo) :=
  match piggybacked_hostname with
  | none => some []
  | some tgt =>
    if tgt = "" then some []
    else
      match get_piggyback_processed_file_infos render re_match time_settings
        tgt source_hostnames payload_mtimes status_mtimes now with
      | none => none
      | some infos =>
        if infos.isEmpty then some []
        else some (infos.map (fun fi =>
          match readF (tgt, fi.source) with
          | Except.ok b => ⟨fi, b⟩
          | Except.error e =>
            ⟨⟨fi.source, false,
              "Cannot read piggyback raw data from source " ++ squote ++
                fi.source ++ squote ++ ": " ++ e, 0⟩, []⟩))

/-- One pair of the payload-retention loop in `_cleanup_old_piggybacked_files`
(lines 524-541): skip a vanished file (`FileNotFoundError`), propagate the
`KeyError` of an unresolvable `max_cache_age` (outer `none`), keep the file
when its age is within the max cache age or the validity period (an
unresolved validity period counting as 0, the Python `or 0`), and delete it
otherwise. -/
def sweep_pair (m : List (SettingKey × Int)) (now : Seconds)
    (folder s : String) (mtime : Option Seconds) :
    Option (Option (String × String)) :=
  match mtime with
  | none => some none
  | some mt =>
    let file_age := now - mt
    match max_cache_age m s folder with
    | none => none
    | some mca =>
      let vp := (validity_period m s folder).getD 0
      if file_age ≤ (mca : Seconds) ∨ file_age ≤ (vp : Seconds) then some none
      else some (some (folder, s))

/-- The inner source loop of `_cleanup_old_piggybacked_files`, collecting
the deleted (target, source) pairs. -/
def sweep_sources (m : List (SettingKey × Int)) (now : Seconds)
    (folder : String) : List (String × Option Seconds) →
    Option (List (String × String))
  | [] => some []
  | (s, mt) :: rest =>
    match sweep_pair m now folder s mt with
    | none => none
    | some d =>
      match sweep_sources m now folder rest with
      | none => none
      | some ds => some (d.toList ++ ds)

/-- Models the file-deletion part of `_cleanup_old_piggybacked_files` over a
listing snapshot: for each piggybacked host folder (with the names and
mtimes of its source files) the time settings are expanded from that
folder's sources, and outdated payload files are removed.  The directory
removal attempt that follows each folder is modelled by
`sweep_remove_folder` below. -/
def cleanup_old_piggybacked_files (re_match : String → String → Bool)
    (time_settings : List PiggybackTimeSetting) (now : Seconds) :
    List (String × List (String × Option Seconds)) →
    Option (List (String × String))
  | [] => some []
  | (folder, src_files) :: rest =>
    let m := matching_time_settings (src_files.map Prod.fst) folder re_match
      time_settings
    match sweep_sources m now folder src_files with
    | none => none
    | some ds =>
      match cleanup_old_piggybacked_files re_match time_settings now rest with
      | none => none
      | some ds2 => some (ds ++ ds2)

/-- Replace the value of a key in an association list (a Python dict
assignment), appending when the key is absent. -/
def aset {α β : Type} [DecidableEq α] (k : α) (v : β) :
    List (α × β) → List (α × β)
  | [] => [(k, v)]
  | kv :: rest => if kv.1 = k then (k, v) :: rest else kv :: aset k v rest

/-- The dict update of `_cleanup_old_source_status_files` (lines 492-494):
store the new value when there is no entry yet or the old entry is not
larger. -/
def update_max_cache_age (d : List (String × Int)) (name : String) (v : Int) :
    List (String × Int) :=
  match alookup name d with
  | none => aset name v d
  | some old => if old ≤ v then aset name v d else d

/-- The inner source loop of the first phase of
`_cleanup_old_source_status_files`: fold every source of one folder into the
per-source maximum, propagating the `KeyError` of an unresolvable
`max_cache_age`. -/
def max_cache_age_fold_sources (m : List (SettingKey × Int)) (folder : String)
    (d : List (String × Int)) : List String → Option (List (String × Int))
  | [] => some d
  | s :: rest =>
    match max_cache_age m s folder with
    | none => none
    | some v => max_cache_age_fold_sources m folder (update_max_cache_age d s v) rest

/-- The first phase of `_cleanup_old_source_status_files`: the per-source
maximum of the resolved `max_cache_age` over every (folder, source) pair of
the listing. -/
def max_cache_age_by_sources (re_match : String → String → Bool)
    (time_settings : List PiggybackTimeSetting) (d : List (String × Int)) :
    List (String × List String) → Option (List (String × Int))
  | [] => some d
  | (folder, srcs) :: rest =>
    let m := matching_time_settings srcs folder re_match time_settings
    match max_cache_age_fold_sources m folder d srcs with
    | none => none
    | some d2 => max_cache_age_by_sources re_match time_settings d2 rest

/-- The second phase of `_cleanup_old_source_status_files` (lines 496-515):
a vanished status file is skipped, a source with no dict entry is only
logged and kept, and a tracked status file is removed exactly when its age
strictly exceeds the retained maximum. -/
def status_file_sweep (d : List (String × Int)) (now : Seconds)
    (source_state_files : List (String × Option Seconds)) : List String :=
  source_state_files.filterMap (fun sf =>
    match sf.2 with
    | none => none
    | some mt =>
      match alookup sf.1 d with
      | none => none
      | some mca => if (mca : Seconds) < now - mt then some sf.1 else none)

/-- Models `_cleanup_old_source_status_files`: build the per-source maxima,
then sweep the source status files, returning the removed names (`none`
models the uncaught `KeyError`). -/
def cleanup_old_source_status_files (re_match : String → String → Bool)
    (time_settings : List PiggybackTimeSetting)
    (listing : List (String × List String))
    (source_state_files : List (String × Option Seconds)) (now : Seconds) :
    Option (List String) :=
  match max_cache_age_by_sources re_match time_settings [] listing with
  | none => none
  | some d => some (status_file_sweep d now source_state_files)

/-- Linux errno values used by the directory-removal handler. -/
def ENOENT : Nat := 2

/-- Linux errno for a non-empty directory. -/
def ENOTEMPTY : Nat := 39

/-- An `OSError` carrying its errno. -/
structure OSErr where
  errno : Nat
deriving DecidableEq

/-- State of a piggybacked host folder at the removal attempt. -/
inductive DirState where
  | missing
  | empty
  | nonempty
deriving DecidableEq

/-- Operating-system behaviour of `Path.rmdir`: removing a missing
directory raises `FileNotFoundError` (ENOENT), removing a non-empty
directory raises `OSError` with ENOTEMPTY, removing an empty directory
succeeds. -/
def rmdir_os : DirState → Except OSErr Unit
  | DirState.missing => Except.error ⟨ENOENT⟩
  | DirState.nonempty => Except.error ⟨ENOTEMPTY⟩
  | DirState.empty => Except.ok ()

/-- The folder-removal handler at the end of `_cleanup_old_piggybacked_files`
(lines 543-553): the `OSError` is re-raised unless its errno is ENOTEMPTY,
in which case the loop continues. -/
def sweep_remove_folder (d : DirState) : Except OSErr Unit :=
  match rmdir_os d with
  | Except.ok _ => Except.ok ()
  | Except.error e => if e.errno = ENOTEMPTY then Except.ok () else Except.error e

/-- Models `_files_in`: a missing directory yields `[]`
(`FileNotFoundError`); otherwise every entry whose name starts with a dot
is skipped.  Names are lists of characters; `starts_with_dot` models
`name.startswith(".")`. -/
def starts_with_dot (n : List Char) : Bool :=
  decide (n.take 1 = [Char.ofNat 46])

/-- Directory listing with hidden entries dropped, as in `_files_in`. -/
def files_in : Option (List (List Char)) → List (List Char)
  | none => []
  | some entries => entries.filter (fun n => !starts_with_dot n)

/-- The temporary status file name used by `_store_status_file_of` (line
364): the `NamedTemporaryFile` prefix is a dot, the status file name and
`.new`; `rand` is the random suffix the library appends. -/
def tmp_status_file_name (status_name rand : List Char) : List Char :=
  Char.ofNat 46 :: (status_name ++ [Char.ofNat 46] ++ [Char.ofNat 110, Char.ofNat 101, Char.ofNat 119] ++ rand)

/-- The value the rule contributes under expanded key `k`, per the
registration rules (spec side, for stating the resolver claim). -/
def rule_entry (source_hostnames : List String) (piggybacked_hostname : String)
    (re_match : String → String → Bool) (k : SettingKey)
    (r : PiggybackTimeSetting) : Option Int :=
  match rule_registration_key source_hostnames piggybacked_hostname re_match r with
  | some k2 => if k2 = k then some r.2.2 else none
  | none => none

/-- First-registered-wins, as the spec words it: the value of the first
rule of the sequence that registers under `k`. -/
def first_registered (source_hostnames : List String)
    (piggybacked_hostname : String) (re_match : String → String → Bool)
    (k : SettingKey) (time_settings : List PiggybackTimeSetting) : Option Int :=
  time_settings.findSome? (rule_entry source_hostnames piggybacked_hostname re_match k)

theorem alookup_append {α β : Type} [DecidableEq α] (k : α)
    (l1 l2 : List (α × β)) :
    alookup k (l1 ++ l2) = (alookup k l1).or (alookup k l2) := by
  induction l1 with
  | nil => simp [alookup]
  | cons kv rest ih =>
    by_cases h : kv.1 = k <;> simp [alookup, h, ih]

theorem alookup_setdefault (m : List (SettingKey × Int)) (k k2 : SettingKey)
    (v : Int) :
    alookup k (setdefault m k2 v) =
      (alookup k m).or (if k2 = k then some v else none) := by
  unfold setdefault
  cases h : alookup k2 m with
  | some x =>
    by_cases hk : k2 = k
    · subst hk; rw [h]; rfl
    · simp [hk]
  | none =>
    rw [alookup_append]
    by_cases hk : k2 = k <;> simp [alookup, hk]

theorem alookup_rule_step (source_hostnames : List String)
    (piggybacked_hostname : String) (re_match : String → String → Bool)
    (m : List (SettingKey × Int)) (r : PiggybackTimeSetting) (k : SettingKey) :
    alookup k (time_setting_rule_step source_hostnames piggybacked_hostname
        re_match m r) =
      (alookup k m).or
        (rule_entry source_hostnames piggybacked_hostname re_match k r) := by
  obtain ⟨expr, key, v⟩ := r
  cases expr with
  | none =>
    simp only [time_setting_rule_step, rule_entry, rule_registration_key]
    exact alookup_setdefault m k (none, key) v
  | some e =>
    simp only [time_setting_rule_step, rule_entry, rule_registration_key]
    by_cases h1 : e ∈ source_hostnames ∨ e = piggybacked_hostname
    · simp only [if_pos h1]
      exact alookup_setdefault m k (some e, key) v
    · simp only [if_neg h1]
      by_cases h2 : e.startsWith "~" ∧ re_match (e.drop 1) piggybacked_hostname
      · simp only [if_pos h2]
        exact alookup_setdefault m k (some piggybacked_hostname, key) v
      · simp only [if_neg h2, Option.or_none]

theorem alookup_matching_time_settings_aux (source_hostnames : List String)
    (piggybacked_hostname : String) (re_match : String → String → Bool)
    (time_settings : List PiggybackTimeSetting) :
    ∀ (m : List (SettingKey × Int)) (k : SettingKey),
      alookup k (time_settings.foldl
        (time_setting_rule_step source_hostnames piggybacked_hostname re_match) m) =
      (alookup k m).or
        (first_registered source_hostnames piggybacked_hostname re_match k
          time_settings) := by
  induction time_settings with
  | nil => intro m k; simp [first_registered, List.findSome?]
  | cons r rest ih =>
    intro m k
    simp only [List.foldl_cons]
    rw [ih, alookup_rule_step, Option.or_assoc]
    congr 1
    simp only [first_registered, List.findSome?_cons]
    cases h : rule_entry source_hostnames piggybacked_hostname re_match k r <;>
      simp [h, Option.or]

/-- C2, amended: registration is first-wins per (scope, key); a rule whose
scope expression starts with the regex marker, is itself neither a known
source name nor the target name, and regex-matches the target is registered
under the target's own scope; lookup for (source, target) tries the
target-scoped value, then the source-scoped value, then the global value; a
missing `validity_period` yields `none`, a missing `validity_state` yields
`0`, and a `max_cache_age` that resolves nowhere raises an uncaught
`KeyError` (the `none` result). -/
theorem C2_time_settings_resolver (source_hostnames : List String)
    (piggybacked_hostname : String) (re_match : String → String → Bool)
    (time_settings : List PiggybackTimeSetting) :
    (∀ k, alookup k (matching_time_settings source_hostnames
        piggybacked_hostname re_match time_settings) =
      first_registered source_hostnames piggybacked_hostname re_match k
        time_settings)
    ∧ (∀ (m : List (SettingKey × Int)) (key src : String) (v : Int),
        alookup ((some piggybacked_hostname : Option String), key) m = some v →
        time_settings_match m key src piggybacked_hostname = some v)
    ∧ (∀ (m : List (SettingKey × Int)) (key src : String) (v : Int),
        alookup ((some piggybacked_hostname : Option String), key) m = none →
        alookup ((some src : Option String), key) m = some v →
        time_settings_match m key src piggybacked_hostname = some v)
    ∧ (∀ (m : List (SettingKey × Int)) (key src : String),
        alookup ((some piggybacked_hostname : Option String), key) m = none →
        alookup ((some src : Option String), key) m = none →
        time_settings_match m key src piggybacked_hostname =
          alookup ((none : Option String), key) m)
    ∧ (∀ (m : List (SettingKey × Int)) (src : String),
        time_settings_match m "validity_period" src piggybacked_hostname = none →
        validity_period m src piggybacked_hostname = none)
    ∧ (∀ (m : List (SettingKey × Int)) (src : String),
        time_settings_match m "validity_state" src piggybacked_hostname = none →
        validity_state m src piggybacked_hostname = 0)
    ∧ (∀ (m : List (SettingKey × Int)) (src : String),
        time_settings_match m "max_cache_age" src piggybacked_hostname = none →
        max_cache_age m src piggybacked_hostname = none) := by
  refine ⟨?_, ?_, ?_, ?_, ?_, ?_, ?_⟩
  · intro k
    rw [matching_time_settings, alookup_matching_time_settings_aux]
    simp [alookup]
  · intro m key src v h
    simp [time_settings_match, h]
  · intro m key src v h1 h2
    simp [time_settings_match, h1, h2]
  · intro m key src h1 h2
    simp [time_settings_match, h1, h2]
  · intro m src h
    simp [validity_period, h]
  · intro m src h
    simp [validity_state, h]
  · intro m src h
    simp [max_cache_age, h]

/-- C2, counterexample to the claim as stated: the scope expression `~a` of
the rule starts with the regex marker and regex-matches the target `a`
(here `re_match` is string equality, and `re.match("a", "a")` matches), yet
because `~a` is itself one of the known source names the rule is registered
under the literal scope `~a`, not under the target's own scope `a`: the
target-scoped lookup finds nothing. -/
theorem C2_counterexample :
    matching_time_settings ["~a"] "a" (fun p t => p == t)
        [(some "~a", "max_cache_age", 7)] =
      [(((some "~a" : Option String), "max_cache_age"), 7)]
    ∧ alookup ((some "a" : Option String), "max_cache_age")
        (matching_time_settings ["~a"] "a" (fun p t => p == t)
          [(some "~a", "max_cache_age", 7)]) = none := by
  constructor <;> rfl

theorem still_valid_message_ne_empty (r : String) :
    " (still valid, " ++ r ++ " left)" ≠ "" := by
  intro h
  have h2 := congrArg String.length h
  rw [String.length_append, String.length_append] at h2
  have ha : (" (still valid, " : String).length = 15 := rfl
  have hb : (" left)" : String).length = 6 := rfl
  have hc : ("" : String).length = 0 := rfl
  rw [ha, hb, hc] at h2
  omega

theorem validity_period_message_eq_empty_iff (render : Seconds → String)
    (file_age : Seconds) (vp : Option Int) :
    validity_period_message render file_age vp = "" ↔
      ∀ p : Int, vp = some p → (p : Seconds) - file_age ≤ 0 := by
  cases vp with
  | none => simp [validity_period_message]
  | some p =>
    by_cases h : (p : Seconds) - file_age ≤ 0
    · simp only [validity_period_message, if_pos h, true_iff]
      intro p2 hp2
      rw [Option.some.injEq] at hp2
      rw [← hp2]
      exact h
    · simp only [validity_period_message, if_neg h]
      constructor
      · intro hc
        exact absurd hc (still_valid_message_ne_empty _)
      · intro hall
        exact absurd (hall p rfl) h

/-- C1: for every (source, target) pair evaluated by the File Info
Inspector: a missing payload file yields an invalid record with status 0
and message "Piggyback file is missing"; a payload file whose age exceeds
the resolved `max_cache_age` yields an invalid record with status 0
regardless of the status file; otherwise, when the pair is abandoned
(status file missing, or status mtime strictly greater than payload
mtime), the record is valid with status equal to the resolved
`validity_state` exactly when the resolved `validity_period` minus the age
is strictly positive, and invalid with status 0 otherwise; when not
abandoned, the record is valid with status 0. -/
theorem C1_file_info_inspector (render : Seconds → String)
    (m : List (SettingKey × Int)) (src tgt : String)
    (status_mtime : Option Seconds) (now : Seconds) :
    (get_piggyback_processed_file_info render m src tgt none status_mtime now =
      some ⟨src, false, "Piggyback file is missing", 0⟩)
    ∧ (∀ (pm : Seconds) (allowed : Int),
        max_cache_age m src tgt = some allowed →
        ((allowed : Seconds) < now - pm →
          ∃ msg, get_piggyback_processed_file_info render m src tgt (some pm)
            status_mtime now = some ⟨src, false, msg, 0⟩)
        ∧ (now - pm ≤ (allowed : Seconds) →
          (is_piggybacked_host_abandoned status_mtime pm = true →
            ((∃ p : Int, validity_period m src tgt = some p ∧
                0 < (p : Seconds) - (now - pm)) →
              ∃ msg, get_piggyback_processed_file_info render m src tgt
                (some pm) status_mtime now =
                some ⟨src, true, msg, validity_state m src tgt⟩)
            ∧ ((∀ p : Int, validity_period m src tgt = some p →
                  (p : Seconds) - (now - pm) ≤ 0) →
              ∃ msg, get_piggyback_processed_file_info render m src tgt
                (some pm) status_mtime now = some ⟨src, false, msg, 0⟩))
          ∧ (is_piggybacked_host_abandoned status_mtime pm = false →
            ∃ msg, get_piggyback_processed_file_info render m src tgt
              (some pm) status_mtime now = some ⟨src, true, msg, 0⟩))) := by
  refine ⟨rfl, ?_⟩
  intro pm allowed hmax
  refine ⟨?_, ?_⟩
  · intro hold
    refine ⟨"Piggyback file too old (age: " ++ render (now - pm) ++
      ", allowed: " ++ render ((allowed : Int) : Seconds) ++ ")", ?_⟩
    simp only [get_piggyback_processed_file_info, hmax, if_pos hold]
  · intro hfresh
    have hnotold : ¬ ((allowed : Seconds) < now - pm) := not_lt.mpr hfresh
    refine ⟨?_, ?_⟩
    · intro hab
      constructor
      · rintro ⟨p, hp, hpos⟩
        have hne : validity_period_message render (now - pm)
            (validity_period m src tgt) ≠ "" := by
          rw [Ne, validity_period_message_eq_empty_iff]
          intro hall
          exact absurd (hall p hp) (not_le.mpr hpos)
        refine ⟨"Piggyback data not updated by source " ++ squote ++ src ++
          squote ++ validity_period_message render (now - pm)
            (validity_period m src tgt), ?_⟩
        simp only [get_piggyback_processed_file_info, hmax, if_neg hnotold,
          hab, if_true]
        rw [if_neg hne]
        have hd : decide (validity_period_message render (now - pm)
            (validity_period m src tgt) ≠ "") = true := decide_eq_true hne
        rw [hd]
      · intro hall
        have he : validity_period_message render (now - pm)
            (validity_period m src tgt) = "" :=
          (validity_period_message_eq_empty_iff _ _ _).mpr hall
        refine ⟨"Piggyback data not updated by source " ++ squote ++ src ++
          squote ++ validity_period_message render (now - pm)
            (validity_period m src tgt), ?_⟩
        simp only [get_piggyback_processed_file_info, hmax, if_neg hnotold,
          hab, if_true]
        rw [if_pos he]
        have hd : decide (validity_period_message render (now - pm)
            (validity_period m src tgt) ≠ "") = false := by
          simp [he]
        rw [hd]
    · intro hab
      refine ⟨"Successfully processed from source " ++ squote ++ src ++
        squote, ?_⟩
      simp [get_piggyback_processed_file_info, hmax, if_neg hnotold, hab]

/-- Setting both file times to `t`, as `os.utime` does. -/
def set_times (t : Seconds) (f : FileData) : FileData := ⟨f.content, t, t⟩

theorem utime_step_payloads (t : Seconds) (fs : PiggybackFS)
    (q p : String × String) :
    (utime_step t fs q).payloads p =
      if p = q then (fs.payloads p).map (set_times t) else fs.payloads p := by
  unfold utime_step
  cases hq : fs.payloads q with
  | none =>
    by_cases hpq : p = q
    · subst hpq; simp [hq]
    · simp [hpq]
  | some f =>
    unfold updPayload
    by_cases hpq : p = q
    · subst hpq; simp [hq, set_times]
    · simp [hpq]

theorem utime_foldl_payloads (t : Seconds) (paths : List (String × String)) :
    ∀ (fs : PiggybackFS) (p : String × String),
      (paths.foldl (utime_step t) fs).payloads p =
        if p ∈ paths then (fs.payloads p).map (set_times t)
        else fs.payloads p := by
  induction paths with
  | nil => intro fs p; simp
  | cons q rest ih =>
    intro fs p
    simp only [List.foldl_cons]
    rw [ih, utime_step_payloads]
    by_cases hpq : p = q
    · subst hpq
      by_cases hmem : p ∈ rest
      · simp [hmem, Option.map_map]
        cases fs.payloads p <;> simp [set_times]
      · simp [hmem]
    · by_cases hmem : p ∈ rest
      · simp [hpq, hmem]
      · have : p ∉ q :: rest := by simp [hpq, hmem]
        simp [hpq, hmem, this]

theorem store_status_file_of_payloads (fs : PiggybackFS) (t : Seconds)
    (src : String) (paths : List (String × String)) (p : String × String) :
    (store_status_file_of fs t src paths).payloads p =
      if p ∈ paths then (fs.payloads p).map (set_times t) else fs.payloads p := by
  unfold store_status_file_of updStatus
  exact utime_foldl_payloads t paths fs p

theorem store_status_file_of_statuses (fs : PiggybackFS) (t : Seconds)
    (src : String) (paths : List (String × String)) :
    (store_status_file_of fs t src paths).statuses src = some ⟨[], t, t⟩ := by
  simp [store_status_file_of, updStatus]

/-- C3: after `_store_status_file_of` runs, the status file exists with the
temporary file's creation times `(t, t)`, and every payload file of the
batch that still exists carries exactly those access and modification
times (one that vanished concurrently was skipped and no longer exists);
hence no such payload file has an mtime strictly newer than the status
file's, and a read immediately afterwards does not take the abandoned
branch. -/
theorem C3_status_file_writer (fs : PiggybackFS) (t : Seconds) (src : String)
    (paths : List (String × String)) :
    ((store_status_file_of fs t src paths).statuses src = some ⟨[], t, t⟩)
    ∧ (∀ p ∈ paths, ∀ f : FileData,
        (store_status_file_of fs t src paths).payloads p = some f →
        f.atime = t ∧ f.mtime = t ∧ f.mtime ≤ t ∧
          is_piggybacked_host_abandoned (some t) f.mtime = false) := by
  refine ⟨store_status_file_of_statuses fs t src paths, ?_⟩
  intro p hp f hf
  rw [store_status_file_of_payloads, if_pos hp] at hf
  obtain ⟨f0, hq, hrw⟩ := Option.map_eq_some'.mp hf
  rw [← hrw]
  refine ⟨rfl, rfl, le_refl t, ?_⟩
  simp [is_piggybacked_host_abandoned, set_times]

/-- C8: an empty batch removes the source's status file — silently whether
or not it existed — and changes nothing else: no payload file and no other
source's status file is touched. -/
theorem C8_empty_batch_frame (fs : PiggybackFS) (t1 t2 : Seconds)
    (src : String) :
    (∀ k, (store_piggyback_raw_data fs t1 t2 src []).payloads k =
      fs.payloads k)
    ∧ (store_piggyback_raw_data fs t1 t2 src []).statuses src = none
    ∧ (∀ s, s ≠ src →
        (store_piggyback_raw_data fs t1 t2 src []).statuses s =
          fs.statuses s) := by
  have hred : store_piggyback_raw_data fs t1 t2 src [] =
      (remove_source_status_file fs src).1 := rfl
  rw [hred]
  cases h : fs.statuses src with
  | some f =>
    refine ⟨?_, ?_, ?_⟩
    · intro k; simp [remove_source_status_file, h, updStatus]
    · simp [remove_source_status_file, h, updStatus]
    · intro s hs; simp [remove_source_status_file, h, updStatus, hs]
  | none =>
    refine ⟨?_, ?_, ?_⟩
    · intro k; simp [remove_source_status_file, h]
    · simp [remove_source_status_file, h]
    · intro s hs; simp [remove_source_status_file, h]

theorem write_step_payloads (src : String) (t1 : Seconds) (fs : PiggybackFS)
    (d : String × List Bytes) (p : String × String) :
    (write_step src t1 fs d).payloads p =
      if p = (d.1, src) then some ⟨join_lines d.2, t1, t1⟩
      else fs.payloads p := rfl

theorem write_foldl_not_mem (src : String) (t1 : Seconds)
    (data : List (String × List Bytes)) :
    ∀ (fs : PiggybackFS) (tg s : String), tg ∉ data.map Prod.fst →
      (data.foldl (write_step src t1) fs).payloads (tg, s) =
        fs.payloads (tg, s) := by
  induction data with
  | nil => intro fs tg s _; rfl
  | cons d rest ih =>
    intro fs tg s h
    simp only [List.map_cons, List.mem_cons, not_or] at h
    simp only [List.foldl_cons]
    rw [ih _ _ _ h.2, write_step_payloads]
    have : (tg, s) ≠ (d.1, src) := by
      intro he
      exact h.1 (congrArg Prod.fst he)
    simp [this]

theorem write_foldl_mem (src : String) (t1 : Seconds)
    (data : List (String × List Bytes)) :
    ∀ (fs : PiggybackFS) (tgt : String) (lines : List Bytes),
      (tgt, lines) ∈ data → (data.map Prod.fst).Nodup →
      (data.foldl (write_step src t1) fs).payloads (tgt, src) =
        some ⟨join_lines lines, t1, t1⟩ := by
  induction data with
  | nil => intro fs tgt lines h _; exact absurd h (by simp)
  | cons d rest ih =>
    intro fs tgt lines h hnd
    simp only [List.map_cons, List.nodup_cons] at hnd
    simp only [List.foldl_cons]
    rcases List.mem_cons.mp h with heq | hmem
    · have htg : tgt ∉ rest.map Prod.fst := by
        rw [← heq] at hnd
        exact hnd.1
      rw [write_foldl_not_mem _ _ _ _ _ _ htg, write_step_payloads]
      rw [← heq]
      simp
    · exact ih _ _ _ hmem hnd.2

theorem store_payload_content (fs : PiggybackFS) (t1 t2 : Seconds)
    (src : String) (data : List (String × List Bytes)) (tgt : String)
    (lines : List Bytes) (hmem : (tgt, lines) ∈ data)
    (hnd : (data.map Prod.fst).Nodup) :
    (store_piggyback_raw_data fs t1 t2 src data).payloads (tgt, src) =
      some ⟨join_lines lines, t2, t2⟩ := by
  have hne : data.isEmpty = false := by
    cases data with
    | nil => exact absurd hmem (by simp)
    | cons d rest => rfl
  unfold store_piggyback_raw_data
  rw [hne]
  simp only [Bool.false_eq_true, if_false]
  rw [store_status_file_of_payloads]
  have hp : ((tgt, src) : String × String) ∈
      data.map (fun d => (d.1, src)) := by
    exact List.mem_map.mpr ⟨(tgt, lines), hmem, rfl⟩
  rw [if_pos hp, write_foldl_mem src t1 data fs tgt lines hmem hnd]
  rfl

/-- C6: a falsy target identifier (absent or empty) makes the accessor
return an empty sequence without consulting the store; otherwise the result
has one entry per evaluated file info, in order, and an entry whose read
raises an `OSError` is degraded — invalid, empty payload, explanatory
message, status 0 — while every other entry pairs its file info with the
bytes read, unaffected by the failure. -/
theorem C6_raw_data_accessor (render : Seconds → String)
    (re_match : String → String → Bool)
    (time_settings : List PiggybackTimeSetting) (source_hostnames : List String)
    (payload_mtimes status_mtimes : String → Option Seconds) (now : Seconds)
    (readF : String × String → Except String Bytes) :
    (get_piggyback_raw_data render re_match time_settings none
      source_hostnames payload_mtimes status_mtimes now readF = some [])
    ∧ (get_piggyback_raw_data render re_match time_settings (some "")
      source_hostnames payload_mtimes status_mtimes now readF = some [])
    ∧ (∀ tgt : String, tgt ≠ "" →
        ∀ infos : List PiggybackFileInfo,
        get_piggyback_processed_file_infos render re_match time_settings tgt
          source_hostnames payload_mtimes status_mtimes now = some infos →
        ∃ l : List PiggybackRawDataInfo,
          get_piggyback_raw_data render re_match time_settings (some tgt)
            source_hostnames payload_mtimes status_mtimes now readF = some l
          ∧ l.length = infos.length
          ∧ ∀ (i : Nat) (h : i < l.length) (h2 : i < infos.length),
            (∀ b : Bytes, readF (tgt, (infos.get ⟨i, h2⟩).source) = Except.ok b →
              l.get ⟨i, h⟩ = ⟨infos.get ⟨i, h2⟩, b⟩)
            ∧ (∀ er : String,
                readF (tgt, (infos.get ⟨i, h2⟩).source) = Except.error er →
              l.get ⟨i, h⟩ = ⟨⟨(infos.get ⟨i, h2⟩).source, false,
                "Cannot read piggyback raw data from source " ++ squote ++
                  (infos.get ⟨i, h2⟩).source ++ squote ++ ": " ++ er, 0⟩, []⟩)) := by
  refine ⟨rfl, by simp [get_piggyback_raw_data], ?_⟩
  intro tgt htgt infos hinfos
  by_cases he : infos.isEmpty
  · refine ⟨[], ?_, ?_, ?_⟩
    · simp [get_piggyback_raw_data, htgt, hinfos, he]
    · rw [List.isEmpty_iff.mp he]
      rfl
    · intro i h _
      exact absurd h (by simp)
  · refine ⟨infos.map (fun fi =>
      match readF (tgt, fi.source) with
      | Except.ok b => ⟨fi, b⟩
      | Except.error e =>
        ⟨⟨fi.source, false,
          "Cannot read piggyback raw data from source " ++ squote ++
            fi.source ++ squote ++ ": " ++ e, 0⟩, []⟩), ?_, ?_, ?_⟩
    · simp only [get_piggyback_raw_data, hinfos]
      rw [if_neg htgt]
      simp [he]
    · simp
    · intro i h h2
      constructor
      · intro b hb
        have hg : (infos.map (fun fi =>
            match readF (tgt, fi.source) with
            | Except.ok b => (⟨fi, b⟩ : PiggybackRawDataInfo)
            | Except.error e =>
              ⟨⟨fi.source, false,
                "Cannot read piggyback raw data from source " ++ squote ++
                  fi.source ++ squote ++ ": " ++ e, 0⟩, []⟩)).get ⟨i, h⟩ =
            (match readF (tgt, (infos.get ⟨i, h2⟩).source) with
            | Except.ok b => (⟨infos.get ⟨i, h2⟩, b⟩ : PiggybackRawDataInfo)
            | Except.error e =>
              ⟨⟨(infos.get ⟨i, h2⟩).source, false,
                "Cannot read piggyback raw data from source " ++ squote ++
                  (infos.get ⟨i, h2⟩).source ++ squote ++ ": " ++ e, 0⟩, []⟩) := by
          simp
        rw [hg, hb]
      · intro er her
        have hg : (infos.map (fun fi =>
            match readF (tgt, fi.source) with
            | Except.ok b => (⟨fi, b⟩ : PiggybackRawDataInfo)
            | Except.error e =>
              ⟨⟨fi.source, false,
                "Cannot read piggyback raw data from source " ++ squote ++
                  fi.source ++ squote ++ ": " ++ e, 0⟩, []⟩)).get ⟨i, h⟩ =
            (match readF (tgt, (infos.get ⟨i, h2⟩).source) with
            | Except.ok b => (⟨infos.get ⟨i, h2⟩, b⟩ : PiggybackRawDataInfo)
            | Except.error e =>
              ⟨⟨(infos.get ⟨i, h2⟩).source, false,
                "Cannot read piggyback raw data from source " ++ squote ++
                  (infos.get ⟨i, h2⟩).source ++ squote ++ ": " ++ e, 0⟩, []⟩) := by
          simp
        rw [hg, her]

/-- C7: after a non-empty batch is written for source `src`, the payload
file of each target of the batch holds exactly that target's byte lines
joined by the newline byte with a single trailing newline byte appended,
and reading that target through the accessor (against the stored state)
returns raw bytes equal to the stored content, so the original lines are
recoverable. -/
theorem C7_round_trip (fs : PiggybackFS) (t1 t2 : Seconds) (src : String)
    (data : List (String × List Bytes)) (tgt : String) (lines : List Bytes)
    (hmem : (tgt, lines) ∈ data) (hnd : (data.map Prod.fst).Nodup) :
    ((store_piggyback_raw_data fs t1 t2 src data).payloads (tgt, src) =
      some ⟨List.intercalate [10] lines ++ [10], t2, t2⟩)
    ∧ load_bytes_from_file (store_piggyback_raw_data fs t1 t2 src data)
        (tgt, src) = Except.ok (join_lines lines)
    ∧ (∀ (render : Seconds → String) (re_match : String → String → Bool)
        (time_settings : List PiggybackTimeSetting)
        (source_hostnames : List String)
        (payload_mtimes status_mtimes : String → Option Seconds)
        (now : Seconds) (l : List PiggybackRawDataInfo),
        get_piggyback_raw_data render re_match time_settings (some tgt)
          source_hostnames payload_mtimes status_mtimes now
          (load_bytes_from_file (store_piggyback_raw_data fs t1 t2 src data)) =
          some l →
        ∀ e ∈ l, e.info.source = src → e.raw_data = join_lines lines) := by
  have hcontent := store_payload_content fs t1 t2 src data tgt lines hmem hnd
  have hload : load_bytes_from_file (store_piggyback_raw_data fs t1 t2 src data)
      (tgt, src) = Except.ok (join_lines lines) := by
    simp [load_bytes_from_file, hcontent]
  refine ⟨hcontent, hload, ?_⟩
  intro render re_match time_settings source_hostnames payload_mtimes
    status_mtimes now l hl e he hsrc
  by_cases htgt : tgt = ""
  · subst htgt
    have hempty : get_piggyback_raw_data render re_match time_settings
        (some "") source_hostnames payload_mtimes status_mtimes now
        (load_bytes_from_file (store_piggyback_raw_data fs t1 t2 src data)) =
        some [] := by
      simp [get_piggyback_raw_data]
    rw [hempty, Option.some.injEq] at hl
    rw [← hl] at he
    exact absurd he (by simp)
  · cases hi : get_piggyback_processed_file_infos render re_match
      time_settings tgt source_hostnames payload_mtimes status_mtimes now with
    | none => simp [get_piggyback_raw_data, hi, htgt] at hl
    | some infos =>
      simp only [get_piggyback_raw_data, hi] at hl
      rw [if_neg htgt] at hl
      by_cases hemp : infos.isEmpty
      · rw [if_pos hemp, Option.some.injEq] at hl
        rw [← hl] at he
        exact absurd he (by simp)
      · rw [if_neg hemp, Option.some.injEq] at hl
        rw [← hl] at he
        obtain ⟨fi, hfi, hfe⟩ := List.mem_map.mp he
        cases hread : load_bytes_from_file
            (store_piggyback_raw_data fs t1 t2 src data) (tgt, fi.source) with
        | ok b =>
          rw [hread] at hfe
          rw [← hfe] at hsrc
          have hs2 : fi.source = src := hsrc
          rw [hs2] at hread
          have h2 := (hread.symm.trans hload).symm
          rw [Except.ok.injEq] at h2
          rw [← hfe]
          exact h2.symm
        | error er =>
          rw [hread] at hfe
          rw [← hfe] at hsrc
          have hs2 : fi.source = src := hsrc
          rw [hs2] at hread
          have h2 := hread.symm.trans hload
          exact absurd h2 (by simp)

theorem sweep_pair_delete_iff (m : List (SettingKey × Int)) (now : Seconds)
    (folder s : String) (mt? : Option Seconds) (pr : String × String) :
    sweep_pair m now folder s mt? = some (some pr) ↔
      pr = (folder, s) ∧ ∃ (mt : Seconds) (mca : Int), mt? = some mt ∧
        max_cache_age m s folder = some mca ∧
        (mca : Seconds) < now - mt ∧
        (((validity_period m s folder).getD 0 : Int) : Seconds) < now - mt := by
  cases mt? with
  | none => simp [sweep_pair]
  | some mt =>
    cases hmca : max_cache_age m s folder with
    | none => simp [sweep_pair, hmca]
    | some mca =>
      simp only [sweep_pair, hmca]
      by_cases hkeep : now - mt ≤ (mca : Seconds) ∨
          now - mt ≤ (((validity_period m s folder).getD 0 : Int) : Seconds)
      · rw [if_pos hkeep]
        constructor
        · intro h; exact absurd h (by simp)
        · rintro ⟨-, mt2, mca2, hmt2, hmca2, h1, h2⟩
          have hmt3 := Option.some.inj hmt2
          have hmca3 := Option.some.inj hmca2
          subst hmt3
          subst hmca3
          rcases hkeep with hk | hk
          · exact absurd h1 (not_lt.mpr hk)
          · exact absurd h2 (not_lt.mpr hk)
      · rw [if_neg hkeep]
        push_neg at hkeep
        constructor
        · intro h
          have h3 := Option.some.inj (Option.some.inj h)
          exact ⟨h3.symm, mt, mca, rfl, rfl, hkeep.1, hkeep.2⟩
        · rintro ⟨hpr, -⟩
          rw [hpr]

theorem sweep_sources_mem (m : List (SettingKey × Int)) (now : Seconds)
    (folder : String) :
    ∀ (src_files : List (String × Option Seconds))
      (ds : List (String × String)),
      sweep_sources m now folder src_files = some ds →
      ∀ pr : String × String, pr ∈ ds ↔
        ∃ (s : String) (mt? : Option Seconds), (s, mt?) ∈ src_files ∧
          sweep_pair m now folder s mt? = some (some pr) := by
  intro src_files
  induction src_files with
  | nil =>
    intro ds h pr
    simp only [sweep_sources, Option.some.injEq] at h
    subst h
    simp
  | cons sf rest ih =>
    intro ds h pr
    obtain ⟨s, mt⟩ := sf
    simp only [sweep_sources] at h
    cases hp : sweep_pair m now folder s mt with
    | none => rw [hp] at h; exact absurd h (by simp)
    | some d =>
      rw [hp] at h
      cases hr : sweep_sources m now folder rest with
      | none => rw [hr] at h; exact absurd h (by simp)
      | some ds0 =>
        rw [hr] at h
        rw [Option.some.injEq] at h
        subst h
        rw [List.mem_append]
        constructor
        · rintro (hd | h0)
          · have hdp : d = some pr := by simpa using hd
            refine ⟨s, mt, by simp, ?_⟩
            rw [hp, hdp]
          · obtain ⟨s2, mt2, hmem, hsw⟩ := (ih ds0 hr pr).mp h0
            exact ⟨s2, mt2, by simp [hmem], hsw⟩
        · rintro ⟨s2, mt2, hmem, hsw⟩
          rcases List.mem_cons.mp hmem with heq | hrest
          · left
            rw [Prod.mk.injEq] at heq
            rw [heq.1, heq.2] at hsw
            rw [hp, Option.some.injEq] at hsw
            rw [hsw]
            simp
          · right
            exact (ih ds0 hr pr).mpr ⟨s2, mt2, hrest, hsw⟩

theorem cleanup_old_piggybacked_files_mem (re_match : String → String → Bool)
    (time_settings : List PiggybackTimeSetting) (now : Seconds) :
    ∀ (listing : List (String × List (String × Option Seconds)))
      (dels : List (String × String)),
      cleanup_old_piggybacked_files re_match time_settings now listing =
        some dels →
      ∀ pr : String × String, pr ∈ dels ↔
        ∃ (folder : String) (src_files : List (String × Option Seconds)),
          (folder, src_files) ∈ listing ∧
          ∃ (s : String) (mt? : Option Seconds), (s, mt?) ∈ src_files ∧
            sweep_pair (matching_time_settings (src_files.map Prod.fst) folder
              re_match time_settings) now folder s mt? = some (some pr) := by
  intro listing
  induction listing with
  | nil =>
    intro dels h pr
    simp only [cleanup_old_piggybacked_files, Option.some.injEq] at h
    subst h
    simp
  | cons fl rest ih =>
    intro dels h pr
    obtain ⟨folder, src_files⟩ := fl
    simp only [cleanup_old_piggybacked_files] at h
    cases hs : sweep_sources (matching_time_settings (src_files.map Prod.fst)
        folder re_match time_settings) now folder src_files with
    | none => rw [hs] at h; exact absurd h (by simp)
    | some ds =>
      rw [hs] at h
      cases hr : cleanup_old_piggybacked_files re_match time_settings now
          rest with
      | none => rw [hr] at h; exact absurd h (by simp)
      | some ds2 =>
        rw [hr] at h
        rw [Option.some.injEq] at h
        subst h
        rw [List.mem_append]
        constructor
        · rintro (h1 | h2)
          · obtain ⟨s, mt2, hmem, hsw⟩ :=
              (sweep_sources_mem _ now folder src_files ds hs pr).mp h1
            exact ⟨folder, src_files, by simp, s, mt2, hmem, hsw⟩
          · obtain ⟨f2, sf2, hmem, rest2⟩ := (ih ds2 hr pr).mp h2
            exact ⟨f2, sf2, by simp [hmem], rest2⟩
        · rintro ⟨f2, sf2, hmem, s, mt2, hmem2, hsw⟩
          rcases List.mem_cons.mp hmem with heq | hrest
          · left
            rw [Prod.mk.injEq] at heq
            rw [heq.1] at hsw
            rw [heq.2] at hsw hmem2
            exact (sweep_sources_mem _ now folder src_files ds hs pr).mpr
              ⟨s, mt2, hmem2, hsw⟩
          · right
            exact (ih ds2 hr pr).mpr ⟨f2, sf2, hrest, s, mt2, hmem2, hsw⟩

/-- C4: a (target, source) pair visited by the payload-retention pass is
deleted exactly when the payload file still had an mtime at the stat and
its age strictly exceeds both the resolved `max_cache_age` and the
resolved `validity_period`, an unresolved validity period counting as 0;
a file whose age is within either window is never deleted by the sweep. -/
theorem C4_payload_retention (re_match : String → String → Bool)
    (time_settings : List PiggybackTimeSetting) (now : Seconds)
    (listing : List (String × List (String × Option Seconds)))
    (dels : List (String × String))
    (h : cleanup_old_piggybacked_files re_match time_settings now listing =
      some dels) :
    ∀ f s : String, (f, s) ∈ dels ↔
      ∃ src_files : List (String × Option Seconds),
        (f, src_files) ∈ listing ∧
        ∃ (mt : Seconds) (mca : Int), (s, some mt) ∈ src_files ∧
          max_cache_age (matching_time_settings (src_files.map Prod.fst) f
            re_match time_settings) s f = some mca ∧
          (mca : Seconds) < now - mt ∧
          (((validity_period (matching_time_settings (src_files.map Prod.fst)
            f re_match time_settings) s f).getD 0 : Int) : Seconds) <
            now - mt := by
  intro f s
  rw [cleanup_old_piggybacked_files_mem re_match time_settings now listing
    dels h (f, s)]
  constructor
  · rintro ⟨folder, src_files, hmem, s2, mt2, hmem2, hsw⟩
    rw [sweep_pair_delete_iff] at hsw
    obtain ⟨hpr, mt, mca, hmt, hmca, h1, h2⟩ := hsw
    rw [Prod.mk.injEq] at hpr
    subst hmt
    rw [← hpr.1] at hmem hmca h2
    rw [← hpr.2] at hmem2 hmca h2
    exact ⟨src_files, hmem, mt, mca, hmem2, hmca, h1, h2⟩
  · rintro ⟨src_files, hmem, mt, mca, hmem2, hmca, h1, h2⟩
    refine ⟨f, src_files, hmem, s, some mt, hmem2, ?_⟩
    rw [sweep_pair_delete_iff]
    exact ⟨rfl, mt, mca, rfl, hmca, h1, h2⟩

/-- Maximum of two optional values, absent values losing. -/
def omax (a b : Option Int) : Option Int :=
  match a, b with
  | none, b => b
  | some x, none => some x
  | some x, some y => some (max x y)

/-- Maximum of a list of values, `none` for the empty list. -/
def list_max : List Int → Option Int
  | [] => none
  | x :: xs =>
    match list_max xs with
    | none => some x
    | some m => some (max x m)

/-- The resolved `max_cache_age` values one folder contributes for source
`x` (spec side, for stating the retention claim). -/
def folder_values (m : List (SettingKey × Int)) (folder x : String)
    (srcs : List String) : List Int :=
  srcs.filterMap (fun s => if s = x then max_cache_age m x folder else none)

/-- All resolved `max_cache_age` values for source `x` over a listing of
(folder, sources) pairs (spec side). -/
def tracked_max_values (re_match : String → String → Bool)
    (time_settings : List PiggybackTimeSetting) (x : String) :
    List (String × List String) → List Int
  | [] => []
  | (folder, srcs) :: rest =>
    folder_values (matching_time_settings srcs folder re_match time_settings)
        folder x srcs ++
      tracked_max_values re_match time_settings x rest

theorem omax_assoc (a b c : Option Int) :
    omax (omax a b) c = omax a (omax b c) := by
  cases a <;> cases b <;> cases c <;> simp [omax, max_assoc]

theorem omax_none_left (b : Option Int) : omax none b = b := rfl

theorem list_max_cons (x : Int) (l : List Int) :
    list_max (x :: l) = omax (some x) (list_max l) := by
  cases h : list_max l <;> simp [list_max, h, omax]

theorem list_max_append (l1 l2 : List Int) :
    list_max (l1 ++ l2) = omax (list_max l1) (list_max l2) := by
  induction l1 with
  | nil => simp [list_max, omax_none_left]
  | cons x xs ih =>
    rw [List.cons_append, list_max_cons, ih, list_max_cons, omax_assoc]

theorem alookup_aset {β : Type} (k x : String) (v : β) :
    ∀ l : List (String × β),
      alookup x (aset k v l) = if x = k then some v else alookup x l := by
  intro l
  induction l with
  | nil =>
    by_cases hx : x = k
    · simp [aset, alookup, hx]
    · have hkx : ¬ (k = x) := fun h => hx h.symm
      simp [aset, alookup, hx, hkx]
  | cons kv rest ih =>
    by_cases hk : kv.1 = k
    · simp only [aset, if_pos hk]
      by_cases hx : x = k
      · simp [alookup, hx]
      · have hkx : ¬ (k = x) := fun h => hx h.symm
        have h1 : ¬ (kv.1 = x) := by rw [hk]; exact hkx
        simp [alookup, hx, hkx, h1]
    · simp only [aset, if_neg hk]
      by_cases hx : kv.1 = x
      · have hxk : ¬ (x = k) := by
          intro h; rw [h] at hx; exact hk hx
        simp [alookup, hx, hxk]
      · simp [alookup, hx, ih]

theorem alookup_update_max (d : List (String × Int)) (name x : String)
    (v : Int) :
    alookup x (update_max_cache_age d name v) =
      if x = name then omax (alookup name d) (some v) else alookup x d := by
  cases h : alookup name d with
  | none =>
    simp only [update_max_cache_age, h]
    rw [alookup_aset]
    by_cases hx : x = name <;> simp [hx, omax]
  | some old =>
    simp only [update_max_cache_age, h]
    by_cases hle : old ≤ v
    · rw [if_pos hle, alookup_aset]
      by_cases hx : x = name <;> simp [hx, omax, max_eq_right hle]
    · rw [if_neg hle]
      by_cases hx : x = name
      · rw [hx, h]
        simp [omax, max_eq_left (le_of_not_le hle), hx]
      · simp [hx]

theorem max_cache_age_fold_sources_alookup (m : List (SettingKey × Int))
    (folder : String) :
    ∀ (srcs : List String) (d d2 : List (String × Int)),
      max_cache_age_fold_sources m folder d srcs = some d2 →
      ∀ x, alookup x d2 =
        omax (alookup x d) (list_max (folder_values m folder x srcs)) := by
  intro srcs
  induction srcs with
  | nil =>
    intro d d2 h x
    simp only [max_cache_age_fold_sources, Option.some.injEq] at h
    subst h
    cases alookup x d <;> rfl
  | cons s rest ih =>
    intro d d2 h x
    simp only [max_cache_age_fold_sources] at h
    cases hv : max_cache_age m s folder with
    | none => rw [hv] at h; exact absurd h (by simp)
    | some v =>
      rw [hv] at h
      have hx2 := ih (update_max_cache_age d s v) d2 h x
      rw [alookup_update_max] at hx2
      by_cases hsx : s = x
      · subst hsx
        have hfv : folder_values m folder s (s :: rest) =
            v :: folder_values m folder s rest := by
          simp [folder_values, List.filterMap_cons, hv]
        rw [hfv, list_max_cons, ← omax_assoc]
        rw [if_pos rfl] at hx2
        exact hx2
      · have hfv : folder_values m folder x (s :: rest) =
            folder_values m folder x rest := by
          simp [folder_values, List.filterMap_cons, hsx]
        rw [hfv]
        have hxs : ¬ (x = s) := fun h2 => hsx h2.symm
        rw [if_neg hxs] at hx2
        exact hx2

theorem max_cache_age_by_sources_alookup (re_match : String → String → Bool)
    (time_settings : List PiggybackTimeSetting) :
    ∀ (listing : List (String × List String)) (d d2 : List (String × Int)),
      max_cache_age_by_sources re_match time_settings d listing = some d2 →
      ∀ x, alookup x d2 =
        omax (alookup x d)
          (list_max (tracked_max_values re_match time_settings x listing)) := by
  intro listing
  induction listing with
  | nil =>
    intro d d2 h x
    simp only [max_cache_age_by_sources, Option.some.injEq] at h
    subst h
    cases alookup x d <;> rfl
  | cons fl rest ih =>
    intro d d2 h x
    obtain ⟨folder, srcs⟩ := fl
    simp only [max_cache_age_by_sources] at h
    cases hf : max_cache_age_fold_sources
        (matching_time_settings srcs folder re_match time_settings) folder d
        srcs with
    | none => rw [hf] at h; exact absurd h (by simp)
    | some d3 =>
      rw [hf] at h
      have h2 := ih d3 d2 h x
      rw [max_cache_age_fold_sources_alookup _ folder srcs d d3 hf x] at h2
      rw [h2, omax_assoc, ← list_max_append]
      rfl

theorem status_file_sweep_mem (d : List (String × Int)) (now : Seconds)
    (source_state_files : List (String × Option Seconds)) (name : String) :
    name ∈ status_file_sweep d now source_state_files ↔
      ∃ (mt : Seconds) (mca : Int),
        (name, some mt) ∈ source_state_files ∧ alookup name d = some mca ∧
        (mca : Seconds) < now - mt := by
  unfold status_file_sweep
  rw [List.mem_filterMap]
  constructor
  · rintro ⟨⟨n, mt?⟩, hmem, hf⟩
    cases mt? with
    | none => exact absurd hf (by simp)
    | some mt =>
      have hf2 : (match alookup n d with
          | none => none
          | some mca => if (mca : Seconds) < now - mt then some n else none) =
          some name := hf
      cases ha : alookup n d with
      | none => rw [ha] at hf2; exact absurd hf2 (by simp)
      | some mca =>
        rw [ha] at hf2
        have hf3 : (if (mca : Seconds) < now - mt then some n else none) =
            some name := hf2
        by_cases hlt : (mca : Seconds) < now - mt
        · rw [if_pos hlt, Option.some.injEq] at hf3
          subst hf3
          exact ⟨mt, mca, hmem, ha, hlt⟩
        · rw [if_neg hlt] at hf3
          exact absurd hf3 (by simp)
  · rintro ⟨mt, mca, hmem, ha, hlt⟩
    refine ⟨(name, some mt), hmem, ?_⟩
    show (match alookup name d with
      | none => none
      | some mca => if (mca : Seconds) < now - mt then some name else none) =
      some name
    rw [ha]
    show (if (mca : Seconds) < now - mt then some name else none) = some name
    rw [if_pos hlt]

/-- C5, amended: the status-file retention pass computes, for each source,
the maximum resolved `max_cache_age` over all target directories containing
a file for that source, and deletes the source's status file exactly when
that maximum exists (the source is referenced by some target directory) and
the file's age strictly exceeds it; a status file whose source is
referenced by no target directory is left alone (logged only), as is one
that vanished before its stat. -/
theorem C5_status_file_retention (re_match : String → String → Bool)
    (time_settings : List PiggybackTimeSetting)
    (listing : List (String × List String))
    (source_state_files : List (String × Option Seconds)) (now : Seconds)
    (d : List (String × Int))
    (hd : max_cache_age_by_sources re_match time_settings [] listing = some d) :
    (∀ s, alookup s d =
      list_max (tracked_max_values re_match time_settings s listing))
    ∧ cleanup_old_source_status_files re_match time_settings listing
        source_state_files now = some (status_file_sweep d now source_state_files)
    ∧ (∀ name, name ∈ status_file_sweep d now source_state_files ↔
        ∃ (mt : Seconds) (mca : Int),
          (name, some mt) ∈ source_state_files ∧ alookup name d = some mca ∧
          (mca : Seconds) < now - mt)
    ∧ (∀ (name : String) (mt : Seconds), (name, some mt) ∈ source_state_files →
        alookup name d = none →
        name ∉ status_file_sweep d now source_state_files) := by
  refine ⟨?_, ?_, ?_, ?_⟩
  · intro s
    have h := max_cache_age_by_sources_alookup re_match time_settings listing
      [] d hd s
    rw [h]
    rfl
  · unfold cleanup_old_source_status_files
    rw [hd]
  · intro name
    exact status_file_sweep_mem d now source_state_files name
  · intro name mt hmem hnone hin
    obtain ⟨mt2, mca, -, ha, -⟩ :=
      (status_file_sweep_mem d now source_state_files name).mp hin
    rw [hnone] at ha
    exact absurd ha (by simp)

/-- C5, counterexample to the claim as stated: the source `srcA` has a
status file (age 100) but is referenced by no target directory at all; the
claim's disjunct requires it to be deleted, yet the sweep of the code
deletes nothing — an untracked status file is skipped with only a debug
log. -/
theorem C5_counterexample :
    cleanup_old_source_status_files (fun _ _ => false) [] []
        [("srcA", some (0 : Seconds))] 100 = some []
    ∧ "srcA" ∉ status_file_sweep [] 100 [("srcA", some (0 : Seconds))] := by
  constructor
  · rfl
  · decide

/-- C9, counterexample to the claim as stated: a target directory that
vanished before the removal attempt makes `rmdir` raise
`FileNotFoundError` (errno ENOENT), which the handler — catching only
ENOTEMPTY — re-raises: the missing directory IS surfaced as an error to
the caller, not tolerated. -/
theorem C9_counterexample :
    sweep_remove_folder DirState.missing = Except.error ⟨ENOENT⟩ := rfl

/-- C9, amended: a non-empty-directory error (ENOTEMPTY) during the
removal attempt is swallowed as benign, and every other removal failure —
including a missing directory (ENOENT) — propagates to the caller as
fatal. -/
theorem C9_folder_removal_errors :
    (sweep_remove_folder DirState.nonempty = Except.ok ())
    ∧ (sweep_remove_folder DirState.empty = Except.ok ())
    ∧ (∀ (d : DirState) (e : OSErr), rmdir_os d = Except.error e →
        e.errno ≠ ENOTEMPTY → sweep_remove_folder d = Except.error e)
    ∧ (∀ d : DirState,
        sweep_remove_folder d = Except.ok () ↔ d ≠ DirState.missing) := by
  refine ⟨rfl, rfl, ?_, ?_⟩
  · intro d e h hne
    unfold sweep_remove_folder
    rw [h]
    show (if e.errno = ENOTEMPTY then Except.ok () else Except.error e) =
      Except.error e
    rw [if_neg hne]
  · intro d
    cases d <;> simp [sweep_remove_folder, rmdir_os, ENOENT, ENOTEMPTY]

/-- C10: every directory enumeration of the module goes through
`_files_in`, which skips entries whose name starts with a dot, and the
writer's temporary status file name is prefixed with a dot, so a temporary
(half-written) status file is never observed as a source or target by any
reader or by the cleanup sweep. -/
theorem C10_hidden_files (entries : Option (List (List Char)))
    (status_name rand : List Char) :
    (∀ n ∈ files_in entries, starts_with_dot n = false)
    ∧ starts_with_dot (tmp_status_file_name status_name rand) = true
    ∧ tmp_status_file_name status_name rand ∉ files_in entries := by
  have hdot : starts_with_dot (tmp_status_file_name status_name rand) = true := by
    rfl
  have hall : ∀ n ∈ files_in entries, starts_with_dot n = false := by
    intro n hn
    cases entries with
    | none => exact absurd hn (by simp [files_in])
    | some es =>
      have := (List.mem_filter.mp hn).2
      simpa using this
  refine ⟨hall, hdot, ?_⟩
  intro hmem
  have := hall _ hmem
  rw [hdot] at this
  exact absurd this (by simp)

/-- Witness for C4 at a concrete input: with a global `max_cache_age` of
10 and no validity period, the payload file of (`h1`, `s1`) with age 100 is
deleted by the sweep. -/
theorem C4_witness :
    ("h1", "s1") ∈ ([("h1", "s1")] : List (String × String)) := by
  have hm : max_cache_age (matching_time_settings ["s1"] "h1"
      (fun _ _ => false) [(none, "max_cache_age", 10)]) "s1" "h1" =
      some 10 := by decide
  have hv : validity_period (matching_time_settings ["s1"] "h1"
      (fun _ _ => false) [(none, "max_cache_age", 10)]) "s1" "h1" = none := by
    decide
  have hsp : sweep_pair (matching_time_settings ["s1"] "h1"
      (fun _ _ => false) [(none, "max_cache_age", 10)]) 100 "h1" "s1"
      (some 0) = some (some ("h1", "s1")) := by
    simp only [sweep_pair, hm, hv, Option.getD_none]
    rw [if_neg (by norm_num)]
  have hclean : cleanup_old_piggybacked_files (fun _ _ => false)
      [(none, "max_cache_age", 10)] 100
      [("h1", [("s1", some (0 : Seconds))])] = some [("h1", "s1")] := by
    simp only [cleanup_old_piggybacked_files, sweep_sources, List.map_cons,
      List.map_nil, hsp]
    rfl
  refine (C4_payload_retention (fun _ _ => false) [(none, "max_cache_age", 10)]
      100 [("h1", [("s1", some (0 : Seconds))])] [("h1", "s1")] hclean
      "h1" "s1").mpr
    ⟨[("s1", some (0 : Seconds))], List.mem_cons_self _ _, 0, 10,
      List.mem_cons_self _ _, hm, by norm_num, ?_⟩
  simp only [List.map_cons, List.map_nil, hv, Option.getD_none]
  norm_num

/-- Witness for C5 at a concrete input: source `s1`, referenced by target
`h1` with a resolved maximum of 10, has a status file of age 100 and is
swept. -/
theorem C5_witness :
    "s1" ∈ status_file_sweep [("s1", 10)] 100 [("s1", some (0 : Seconds))] :=
  ((C5_status_file_retention (fun _ _ => false) [(none, "max_cache_age", 10)]
      [("h1", ["s1"])] [("s1", some (0 : Seconds))] 100 [("s1", 10)]
      (by decide)).2.2.1 "s1").mpr
    ⟨0, 10, List.mem_cons_self _ _, by decide, by norm_num⟩

/-- Witness for C7 at a concrete input: one line `[65]` stored for target
`h1` from source `s1` is kept as `[65, 10]` with the status-file times. -/
theorem C7_witness :
    (store_piggyback_raw_data ⟨fun _ => none, fun _ => none⟩ 1 2 "s1"
        [("h1", [[65]])]).payloads ("h1", "s1") =
      some ⟨List.intercalate [10] [[65]] ++ [10], 2, 2⟩ :=
  (C7_round_trip ⟨fun _ => none, fun _ => none⟩ 1 2 "s1" [("h1", [[65]])]
      "h1" [[65]] (List.mem_cons_self _ _) (by simp)).1

example :
    get_piggyback_processed_file_info (fun _ => "")
        (matching_time_settings ["srv1"] "host1" (fun _ _ => false)
          [(none, "max_cache_age", 3600)])
        "srv1" "host1" none (some 0) 1800 =
      some ⟨"srv1", false, "Piggyback file is missing", 0⟩ := rfl

example :
    (get_piggyback_processed_file_info (fun _ => "")
        (matching_time_settings ["srv1"] "host1" (fun _ _ => false)
          [(none, "max_cache_age", 3600)])
        "srv1" "host1" (some 0) (some 0) 1800).map
      (fun i => (i.valid, i.status)) = some (true, 0) := by
  have hm : max_cache_age (matching_time_settings ["srv1"] "host1"
      (fun _ _ => false) [(none, "max_cache_age", 3600)]) "srv1" "host1" =
      some 3600 := by decide
  have hab : is_piggybacked_host_abandoned (some (0 : Seconds)) 0 = false := by
    norm_num [is_piggybacked_host_abandoned]
  simp only [get_piggyback_processed_file_info, hm, hab]
  rw [if_neg (by norm_num)]
  simp

example :
    (get_piggyback_processed_file_info (fun _ => "")
        (matching_time_settings ["srv1"] "host1" (fun _ _ => false)
          [(none, "max_cache_age", 3600)])
        "srv1" "host1" (some 0) (some 0) 3601).map
      (fun i => (i.valid, i.status)) = some (false, 0) := by
  have hm : max_cache_age (matching_time_settings ["srv1"] "host1"
      (fun _ _ => false) [(none, "max_cache_age", 3600)]) "srv1" "host1" =
      some 3600 := by decide
  simp only [get_piggyback_processed_file_info, hm]
  rw [if_pos (by norm_num)]
  simp

example :
    (get_piggyback_processed_file_info (fun _ => "")
        (matching_time_settings ["srv1"] "host1" (fun _ _ => false)
          [(none, "max_cache_age", 3600), (none, "validity_period", 7200),
            (none, "validity_state", 1)])
        "srv1" "host1" (some 0) (some 1) 1800).map
      (fun i => (i.valid, i.status)) = some (true, 1) := by
  have hm : max_cache_age (matching_time_settings ["srv1"] "host1"
      (fun _ _ => false) [(none, "max_cache_age", 3600),
        (none, "validity_period", 7200), (none, "validity_state", 1)])
      "srv1" "host1" = some 3600 := by decide
  have hvp : validity_period (matching_time_settings ["srv1"] "host1"
      (fun _ _ => false) [(none, "max_cache_age", 3600),
        (none, "validity_period", 7200), (none, "validity_state", 1)])
      "srv1" "host1" = some 7200 := by decide
  have hvs : validity_state (matching_time_settings ["srv1"] "host1"
      (fun _ _ => false) [(none, "max_cache_age", 3600),
        (none, "validity_period", 7200), (none, "validity_state", 1)])
      "srv1" "host1" = 1 := by decide
  have hab : is_piggybacked_host_abandoned (some (1 : Seconds)) 0 = true := by
    norm_num [is_piggybacked_host_abandoned]
  have hmsg : validity_period_message (fun _ => "") (1800 - 0) (some 7200) =
      " (still valid, " ++ (fun (_ : Seconds) => "") ((7200 : Seconds) - (1800 - 0)) ++ " left)" := by
    rw [validity_period_message, if_neg (by norm_num)]
  simp only [get_piggyback_processed_file_info, hm, hvp, hvs, hab, if_true,
    hmsg]
  rw [if_neg (by norm_num)]
  have hne : (" (still valid, " ++ (fun (_ : Seconds) => "") ((7200 : Seconds) - (1800 - 0)) ++ " left)" : String) ≠ "" :=
    still_valid_message_ne_empty _
  simp [hne]

example :
    (get_piggyback_processed_file_info (fun _ => "")
        (matching_time_settings ["srv1"] "host1" (fun _ _ => false)
          [(none, "max_cache_age", 3600)])
        "srv1" "host1" (some 0) none 1800).map
      (fun i => (i.valid, i.status)) = some (false, 0) := by
  have hm : max_cache_age (matching_time_settings ["srv1"] "host1"
      (fun _ _ => false) [(none, "max_cache_age", 3600)]) "srv1" "host1" =
      some 3600 := by decide
  have hvp : validity_period (matching_time_settings ["srv1"] "host1"
      (fun _ _ => false) [(none, "max_cache_age", 3600)]) "srv1" "host1" =
      none := by decide
  simp only [get_piggyback_processed_file_info, hm, hvp,
    is_piggybacked_host_abandoned, validity_period_message]
  rw [if_neg (by norm_num)]
  simp

end Piggyback
